import Mathlib

set_option maxRecDepth 8192

/-!
Verification of the rtl_433 HCS200/HCS300 KeeLoq decoder (`src/devices/hcs200.c`)
against its natural-language specification.

The decoder entry point `hcs200_callback` receives a demodulated bit buffer and
either rejects it with a classification (`DECODE_ABORT_LENGTH` = the spec's
`LENGTH_MISMATCH`, `DECODE_ABORT_EARLY` = `PREAMBLE_MISMATCH`,
`DECODE_FAIL_SANITY` = `SANITY_FAIL`) or emits exactly one structured record
and returns success (`DECODE_OK`, the C code's return value 1).

Machine integers are modelled as `Nat` with explicit `% 2^w` truncation at the
points where the C types impose it: bytes of the bit buffer are `uint8_t`
(read modulo 256), row bit counts are `uint16_t` (read modulo 65536).
-/

/-- Models the C `bitbuffer_t`: a row count, the per-row bit counts
(`uint16_t bits_per_row[]`), and the per-row byte arrays (`uint8_t bb[][]`).
Absent entries read as 0, matching the zero-initialised fixed C arrays. -/
structure bitbuffer_t where
  num_rows : Nat
  bits_per_row : List Nat
  bb : List (List Nat)
deriving Repr, DecidableEq

/-- Reads `bits_per_row[r]` with `uint16_t` semantics. -/
def bitsRow (buf : bitbuffer_t) (r : Nat) : Nat :=
  buf.bits_per_row.getD r 0 % 65536

/-- Reads byte `i` of a row with `uint8_t` semantics. -/
def rowByte (row : List Nat) (i : Nat) : Nat :=
  row.getD i 0 % 256

/-- Modelled from the spec: `reverse8` (defined in the repository's `util.c`,
which is not part of the provided sources) reverses the bit order of a byte —
bit 7 and bit 0 swapped, bit 6 and bit 1 swapped, bit 5 and bit 2 swapped,
bit 4 and bit 3 swapped. Only the low 8 bits of the argument are read,
matching the `uint8_t` parameter type. -/
def reverse8 (x : Nat) : Nat :=
  (((x >>> 0) &&& 1) <<< 7) ||| (((x >>> 1) &&& 1) <<< 6) |||
  (((x >>> 2) &&& 1) <<< 5) ||| (((x >>> 3) &&& 1) <<< 4) |||
  (((x >>> 4) &&& 1) <<< 3) ||| (((x >>> 5) &&& 1) <<< 2) |||
  (((x >>> 6) &&& 1) <<< 1) ||| (((x >>> 7) &&& 1) <<< 0)

/-- Models the decoder return classifications used by `hcs200_callback`. -/
inductive ret_code where
  | DECODE_ABORT_LENGTH
  | DECODE_ABORT_EARLY
  | DECODE_FAIL_SANITY
  | DECODE_OK
deriving Repr, DecidableEq

/-- Models a `data_t` value: either a `DATA_STRING` or a `DATA_INT`. -/
inductive data_value where
  | str : String → data_value
  | int : Int → data_value
deriving Repr, DecidableEq

/-- Models one `data_make` entry: key, pretty name, value. -/
def data_field : Type := String × String × data_value

/-- Hex digit character, uppercase for 10..15 (48 = handwritten ASCII code of
the zero digit, 55 + 10 = 65 the ASCII code of the letter A). -/
def hexDigitChar (n : Nat) : Char :=
  if n < 10 then Char.ofNat (48 + n) else Char.ofNat (55 + n)

/-- Fuel-indexed most-significant-digit-first hex rendering of a natural
number, as printf `%X` produces it. -/
def natToHexCore : Nat → Nat → List Char
  | 0, _ => []
  | fuel + 1, n =>
    if n < 16 then [hexDigitChar n]
    else natToHexCore fuel (n / 16) ++ [hexDigitChar (n % 16)]

/-- Hex rendering of `n` with no padding, as printf `%X`. -/
def natToHex (n : Nat) : List Char :=
  natToHexCore (n + 1) n

/-- Hex rendering of `n` zero-padded to a minimum width, as printf `%0*X`. -/
def formatHex (width n : Nat) : List Char :=
  List.replicate (width - (natToHex n).length) '0' ++ natToHex n

/-- Models `snprintf(dst, size, "%0*X", n)` into a buffer of `size` bytes:
the formatted digits, truncated to at most `size - 1` characters. -/
def snprintf_hex (size width n : Nat) : String :=
  String.mk ((formatHex width n).take (size - 1))

/-- Models `encrypted = (reverse8(b[3]) << 24) | (reverse8(b[2]) << 16) |
(reverse8(b[1]) << 8) | reverse8(b[0])` on the data row. -/
def hcs200_encrypted (b : List Nat) : Nat :=
  ((reverse8 (rowByte b 3)) <<< 24) ||| ((reverse8 (rowByte b 2)) <<< 16) |||
  ((reverse8 (rowByte b 1)) <<< 8) ||| reverse8 (rowByte b 0)

/-- Models `serial = (reverse8(b[7] & 0xf0) << 24) | (reverse8(b[6]) << 16) |
(reverse8(b[5]) << 8) | reverse8(b[4])` on the data row. -/
def hcs200_serial (b : List Nat) : Nat :=
  ((reverse8 (rowByte b 7 &&& 0xf0)) <<< 24) ||| ((reverse8 (rowByte b 6)) <<< 16) |||
  ((reverse8 (rowByte b 5)) <<< 8) ||| reverse8 (rowByte b 4)

/-- Models `btn = b[7] & 0x0f` on the data row. -/
def hcs200_btn (b : List Nat) : Nat :=
  rowByte b 7 &&& 0x0f

/-- Models `btn_num = (btn & 0x08) | ((btn & 0x01) << 2) | (btn & 0x02) |
((btn & 0x04) >> 2)`, the S3, S0, S1, S2 button reordering. -/
def btn_num (btn : Nat) : Nat :=
  (btn &&& 0x08) ||| ((btn &&& 0x01) <<< 2) ||| (btn &&& 0x02) ||| ((btn &&& 0x04) >>> 2)

/-- Packages `btn_num` as a function on the 16 possible raw nibbles. -/
def btnNumFin (i : Fin 16) : Fin 16 :=
  ⟨btn_num i.val, by rcases i with ⟨v, hv⟩; revert v; decide⟩

/-- Models `learn = (b[7] & 0x0f) == 0x0f`. -/
def hcs200_learn (b : List Nat) : Bool :=
  (rowByte b 7 &&& 0x0f) == 0x0f

/-- Models `battery_low = (b[8] & 0x80) == 0x80`. -/
def hcs200_battery_low (b : List Nat) : Bool :=
  (rowByte b 8 &&& 0x80) == 0x80

/-- Models `repeat = (b[8] & 0x40) == 0x40`. -/
def hcs200_repeat (b : List Nat) : Bool :=
  (rowByte b 8 &&& 0x40) == 0x40

/-- Models `snprintf(encrypted_str, sizeof(encrypted_str), "%08X", encrypted)`
with `char encrypted_str[9]`. -/
def hcs200_encrypted_str (b : List Nat) : String :=
  snprintf_hex 9 8 (hcs200_encrypted b)

/-- Models `snprintf(serial_str, sizeof(serial_str), "%07X", serial)`
with `char serial_str[9]`. -/
def hcs200_serial_str (b : List Nat) : String :=
  snprintf_hex 9 7 (hcs200_serial b)

/-- Models the `data_make` call of `hcs200_callback`: the ordered record
handed to `decoder_output_data`. -/
def hcs200_record (b : List Nat) : List data_field :=
  [("model", "", data_value.str "Microchip-HCS200"),
   ("id", "", data_value.str (hcs200_serial_str b)),
   ("battery_ok", "Battery", data_value.int (if hcs200_battery_low b then 0 else 1)),
   ("button", "Button", data_value.int (btn_num (hcs200_btn b))),
   ("learn", "Learn mode", data_value.int (if hcs200_learn b then 1 else 0)),
   ("repeat", "Repeat", data_value.int (if hcs200_repeat b then 1 else 0)),
   ("encrypted", "", data_value.str (hcs200_encrypted_str b))]

/-- Models `hcs200_callback`: the returned classification together with the
list of records emitted through `decoder_output_data` during the call. -/
def hcs200_callback (buf : bitbuffer_t) : ret_code × List (List data_field) :=
  if bitsRow buf 0 ≠ 12 ∨ bitsRow buf 1 ≠ 66 then
    (ret_code.DECODE_ABORT_LENGTH, [])
  else if rowByte (buf.bb.getD 0 []) 0 ≠ 0xff ∨ (rowByte (buf.bb.getD 0 []) 1 &&& 0xf0) ≠ 0xf0 then
    (ret_code.DECODE_ABORT_EARLY, [])
  else if rowByte (buf.bb.getD 1 []) 1 = 0xff ∧ rowByte (buf.bb.getD 1 []) 2 = 0xff ∧
          rowByte (buf.bb.getD 1 []) 3 = 0xff ∧ rowByte (buf.bb.getD 1 []) 4 = 0xff ∧
          rowByte (buf.bb.getD 1 []) 5 = 0xff ∧ rowByte (buf.bb.getD 1 []) 6 = 0xff ∧
          rowByte (buf.bb.getD 1 []) 7 = 0xff then
    (ret_code.DECODE_FAIL_SANITY, [])
  else
    (ret_code.DECODE_OK, [hcs200_record (buf.bb.getD 1 [])])

/-- Models the `output_fields` array of the source (without its NULL
terminator). -/
def output_fields : List String :=
  ["model", "id", "battery_ok", "button", "learn", "repeat", "encrypted"]

/-- Recognises the characters printf %X can emit: decimal digits and the
uppercase letters A..F. -/
def isHexUpper (c : Char) : Bool :=
  c.isDigit || ('A' ≤ c && c ≤ 'F')

/-- Buffer used as witness input: Scenario A of the spec — valid preamble row
and data row {0x12, 0x34, 0x56, 0x78, 0x9A, 0xBC, 0xDE, 0x07, 0x00}. -/
def wbufA : bitbuffer_t :=
  ⟨2, [12, 66], [[0xff, 0xf0], [0x12, 0x34, 0x56, 0x78, 0x9a, 0xbc, 0xde, 0x07, 0x00]]⟩

/-- Buffer with three rows whose rows 0 and 1 are nonetheless well-formed:
rows 0 and 1 as in Scenario A plus a trailing third row. -/
def threeRowBuf : bitbuffer_t :=
  ⟨3, [12, 66, 5], [[0xff, 0xf0], [0x12, 0x34, 0x56, 0x78, 0x9a, 0xbc, 0xde, 0x07, 0x00], [0x1f]]⟩

/-- Buffer whose row 0 has 11 bits (Scenario D of the spec). -/
def shortRow0Buf : bitbuffer_t :=
  ⟨2, [11, 66], [[0xff, 0xe0], [0x12, 0x34, 0x56, 0x78, 0x9a, 0xbc, 0xde, 0x07, 0x00]]⟩

/-- Buffer with correct row lengths but a broken preamble byte 0. -/
def badPreambleBuf : bitbuffer_t :=
  ⟨2, [12, 66], [[0xfe, 0xf0], [0x12, 0x34, 0x56, 0x78, 0x9a, 0xbc, 0xde, 0x07, 0x00]]⟩

/-- Buffer with correct shape and preamble whose data bytes 1..7 are all 0xFF
while data byte 0 is not (Scenario C of the spec). -/
def allFFDataBuf : bitbuffer_t :=
  ⟨2, [12, 66], [[0xff, 0xf0], [0x00, 0xff, 0xff, 0xff, 0xff, 0xff, 0xff, 0xff, 0x00]]⟩

theorem byte_facts (v : Nat) (h : v < 256) :
    reverse8 v < 256 ∧ reverse8 (v &&& 0xf0) < 16 ∧
    v &&& 0xf0 = v / 16 * 16 ∧ v &&& 0x0f = v % 16 ∧
    ((v &&& 0x80 = 0x80) ↔ v.testBit 7 = true) ∧
    ((v &&& 0x40 = 0x40) ↔ v.testBit 6 = true) ∧
    ((v &&& 0xf0 = 0xf0) ↔ v / 16 = 0xf) := by
  revert v h
  decide

theorem rowByte_lt (row : List Nat) (i : Nat) : rowByte row i < 256 :=
  Nat.mod_lt _ (by omega)

theorem lor_shl_add (x k : Nat) {y : Nat} (hy : y < 2 ^ k) :
    (x <<< k) ||| y = x * 2 ^ k + y := by
  have h := Nat.mul_add_lt_is_or (i := k) hy x
  rw [Nat.shiftLeft_eq, Nat.mul_comm x (2 ^ k)]
  exact h.symm

theorem lor4_eq_sum (a b c d : Nat) (hb : b < 256) (hc : c < 256) (hd : d < 256) :
    ((a <<< 24) ||| (b <<< 16) ||| (c <<< 8) ||| d)
      = a * 2 ^ 24 + b * 2 ^ 16 + c * 2 ^ 8 + d := by
  have h1 : (c <<< 8) ||| d = c * 2 ^ 8 + d := lor_shl_add c 8 (by omega)
  have h2 : (b <<< 16) ||| (c * 2 ^ 8 + d) = b * 2 ^ 16 + (c * 2 ^ 8 + d) :=
    lor_shl_add b 16 (by omega)
  have h3 : (a <<< 24) ||| (b * 2 ^ 16 + (c * 2 ^ 8 + d))
      = a * 2 ^ 24 + (b * 2 ^ 16 + (c * 2 ^ 8 + d)) :=
    lor_shl_add a 24 (by omega)
  rw [Nat.or_assoc, Nat.or_assoc, h1, h2, h3]
  omega

theorem hcs200_serial_lt (b : List Nat) : hcs200_serial b < 2 ^ 28 := by
  unfold hcs200_serial
  have h7 := (byte_facts (rowByte b 7) (rowByte_lt b 7)).2.1
  have h6 := (byte_facts (rowByte b 6) (rowByte_lt b 6)).1
  have h5 := (byte_facts (rowByte b 5) (rowByte_lt b 5)).1
  have h4 := (byte_facts (rowByte b 4) (rowByte_lt b 4)).1
  apply Nat.or_lt_two_pow (n := 28)
  · apply Nat.or_lt_two_pow (n := 28)
    · apply Nat.or_lt_two_pow (n := 28)
      · rw [Nat.shiftLeft_eq]
        calc reverse8 (rowByte b 7 &&& 0xf0) * 2 ^ 24 < 16 * 2 ^ 24 :=
              mul_lt_mul_of_pos_right h7 (by norm_num)
          _ ≤ 2 ^ 28 := by norm_num
      · rw [Nat.shiftLeft_eq]
        calc reverse8 (rowByte b 6) * 2 ^ 16 < 256 * 2 ^ 16 :=
              mul_lt_mul_of_pos_right h6 (by norm_num)
          _ ≤ 2 ^ 28 := by norm_num
    · rw [Nat.shiftLeft_eq]
      calc reverse8 (rowByte b 5) * 2 ^ 8 < 256 * 2 ^ 8 :=
            mul_lt_mul_of_pos_right h5 (by norm_num)
        _ ≤ 2 ^ 28 := by norm_num
  · calc reverse8 (rowByte b 4) < 256 := h4
      _ ≤ 2 ^ 28 := by norm_num

theorem hcs200_encrypted_lt (b : List Nat) : hcs200_encrypted b < 2 ^ 32 := by
  unfold hcs200_encrypted
  have h3 := (byte_facts (rowByte b 3) (rowByte_lt b 3)).1
  have h2 := (byte_facts (rowByte b 2) (rowByte_lt b 2)).1
  have h1 := (byte_facts (rowByte b 1) (rowByte_lt b 1)).1
  have h0 := (byte_facts (rowByte b 0) (rowByte_lt b 0)).1
  apply Nat.or_lt_two_pow (n := 32)
  · apply Nat.or_lt_two_pow (n := 32)
    · apply Nat.or_lt_two_pow (n := 32)
      · rw [Nat.shiftLeft_eq]
        calc reverse8 (rowByte b 3) * 2 ^ 24 < 256 * 2 ^ 24 :=
              mul_lt_mul_of_pos_right h3 (by norm_num)
          _ ≤ 2 ^ 32 := by norm_num
      · rw [Nat.shiftLeft_eq]
        calc reverse8 (rowByte b 2) * 2 ^ 16 < 256 * 2 ^ 16 :=
              mul_lt_mul_of_pos_right h2 (by norm_num)
          _ ≤ 2 ^ 32 := by norm_num
    · rw [Nat.shiftLeft_eq]
      calc reverse8 (rowByte b 1) * 2 ^ 8 < 256 * 2 ^ 8 :=
            mul_lt_mul_of_pos_right h1 (by norm_num)
        _ ≤ 2 ^ 32 := by norm_num
  · calc reverse8 (rowByte b 0) < 256 := h0
      _ ≤ 2 ^ 32 := by norm_num

theorem natToHexCore_length_le (fuel : Nat) :
    ∀ n k : Nat, 0 < k → n < 16 ^ k → (natToHexCore fuel n).length ≤ k := by
  induction fuel with
  | zero => intro n k _ _; simp [natToHexCore]
  | succ fuel ih =>
    intro n k hk hn
    by_cases hsmall : n < 16
    · simp [natToHexCore, hsmall]
      omega
    · have hk2 : 2 ≤ k := by
        by_contra hcon
        have : k = 1 := by omega
        subst this
        simp at hn
        omega
      have hdiv : n / 16 < 16 ^ (k - 1) := by
        rw [Nat.div_lt_iff_lt_mul (by omega)]
        calc n < 16 ^ k := hn
          _ = 16 ^ (k - 1) * 16 := by
            rw [← Nat.pow_succ]
            congr 1
            omega
      have hrec := ih (n / 16) (k - 1) (by omega) hdiv
      simp [natToHexCore, hsmall]
      omega

theorem natToHexCore_all_hex (fuel : Nat) :
    ∀ n : Nat, (natToHexCore fuel n).all isHexUpper = true := by
  have hdigit : ∀ m : Nat, m < 16 → isHexUpper (hexDigitChar m) = true := by decide
  induction fuel with
  | zero => intro n; simp [natToHexCore]
  | succ fuel ih =>
    intro n
    by_cases hsmall : n < 16
    · simp [natToHexCore, hsmall]
      exact hdigit n hsmall
    · have heq : natToHexCore (fuel + 1) n
          = natToHexCore fuel (n / 16) ++ [hexDigitChar (n % 16)] := by
        simp [natToHexCore, hsmall]
      rw [heq, List.all_append, ih (n / 16)]
      simp [hdigit (n % 16) (Nat.mod_lt _ (by omega))]

theorem natToHex_pos (n : Nat) : 0 < (natToHex n).length := by
  unfold natToHex
  by_cases hsmall : n < 16 <;> simp [natToHexCore, hsmall]

theorem snprintf_hex_spec (size width n : Nat) (hw : 0 < width)
    (hsz : width ≤ size - 1) (hn : n < 16 ^ width) :
    snprintf_hex size width n = String.mk (formatHex width n) ∧
    (snprintf_hex size width n).length = width ∧
    (snprintf_hex size width n).data.all isHexUpper = true := by
  have hlen : (natToHex n).length ≤ width := natToHexCore_length_le (n + 1) n width hw hn
  have hflen : (formatHex width n).length = width := by
    unfold formatHex
    rw [List.length_append, List.length_replicate]
    omega
  have htake : (formatHex width n).take (size - 1) = formatHex width n :=
    List.take_of_length_le (by omega)
  have hmk : snprintf_hex size width n = String.mk (formatHex width n) := by
    unfold snprintf_hex
    rw [htake]
  refine ⟨hmk, ?_, ?_⟩
  · rw [hmk]
    show (formatHex width n).length = width
    exact hflen
  · rw [hmk]
    show (formatHex width n).all isHexUpper = true
    unfold formatHex
    rw [List.all_append, Bool.and_eq_true]
    refine ⟨?_, natToHexCore_all_hex (n + 1) n⟩
    rw [List.all_eq_true]
    intro c hc
    rw [List.eq_of_mem_replicate hc]
    decide

theorem sanity_iff (row : List Nat) :
    (rowByte row 1 = 0xff ∧ rowByte row 2 = 0xff ∧ rowByte row 3 = 0xff ∧
     rowByte row 4 = 0xff ∧ rowByte row 5 = 0xff ∧ rowByte row 6 = 0xff ∧
     rowByte row 7 = 0xff) ↔ (∀ i, 1 ≤ i → i ≤ 7 → rowByte row i = 0xff) := by
  constructor
  · rintro ⟨h1, h2, h3, h4, h5, h6, h7⟩ i hi1 hi7
    interval_cases i <;> assumption
  · intro h
    exact ⟨h 1 (by omega) (by omega), h 2 (by omega) (by omega), h 3 (by omega) (by omega),
           h 4 (by omega) (by omega), h 5 (by omega) (by omega), h 6 (by omega) (by omega),
           h 7 (by omega) (by omega)⟩

/-- C1: for every data row, the 32-bit `encrypted` field is the big-endian
reassembly of the bit-reversed data bytes 3, 2, 1, 0 (reversed byte 3 most
significant), and the `serial` field is the big-endian reassembly of the
bit-reversed bytes (byte 7 with its low nibble zeroed), 6, 5, 4. -/
theorem spec_C1 (b : List Nat) :
    hcs200_encrypted b
      = reverse8 (rowByte b 3) * 2 ^ 24 + reverse8 (rowByte b 2) * 2 ^ 16 +
        reverse8 (rowByte b 1) * 2 ^ 8 + reverse8 (rowByte b 0) ∧
    hcs200_serial b
      = reverse8 (rowByte b 7 / 16 * 16) * 2 ^ 24 + reverse8 (rowByte b 6) * 2 ^ 16 +
        reverse8 (rowByte b 5) * 2 ^ 8 + reverse8 (rowByte b 4) := by
  constructor
  · unfold hcs200_encrypted
    exact lor4_eq_sum _ _ _ _
      (byte_facts _ (rowByte_lt b 2)).1
      (byte_facts _ (rowByte_lt b 1)).1
      (byte_facts _ (rowByte_lt b 0)).1
  · have hmask := (byte_facts (rowByte b 7) (rowByte_lt b 7)).2.2.1
    unfold hcs200_serial
    rw [← hmask]
    exact lor4_eq_sum _ _ _ _
      (byte_facts _ (rowByte_lt b 6)).1
      (byte_facts _ (rowByte_lt b 5)).1
      (byte_facts _ (rowByte_lt b 4)).1

/-- C5: the button normalization moves input bit 3 to output bit 3, input
bit 0 to output bit 2, input bit 1 to output bit 1, and input bit 2 to
output bit 0, for every 4-bit raw nibble. -/
theorem spec_C5 (btn : Nat) (h : btn < 16) :
    btn_num btn < 16 ∧
    (btn_num btn).testBit 3 = btn.testBit 3 ∧
    (btn_num btn).testBit 2 = btn.testBit 0 ∧
    (btn_num btn).testBit 1 = btn.testBit 1 ∧
    (btn_num btn).testBit 0 = btn.testBit 2 := by
  revert btn
  decide

theorem spec_C5_witness :
    btn_num 6 < 16 ∧
    (btn_num 6).testBit 3 = Nat.testBit 6 3 ∧
    (btn_num 6).testBit 2 = Nat.testBit 6 0 ∧
    (btn_num 6).testBit 1 = Nat.testBit 6 1 ∧
    (btn_num 6).testBit 0 = Nat.testBit 6 2 :=
  spec_C5 6 (by decide)

/-- C6: button normalization, seen as a function on the 16 possible 4-bit
nibbles, is a bijection. -/
theorem spec_C6 : Function.Bijective btnNumFin := by
  decide

/-- C7: `button_raw` is the low nibble of the unreversed data byte 7, `learn`
holds iff that nibble is 0xF, `battery_low` holds iff bit 7 of data byte 8 is
set, and `repeat` holds iff bit 6 of data byte 8 is set. -/
theorem spec_C7 (b : List Nat) :
    hcs200_btn b = rowByte b 7 % 16 ∧
    (hcs200_learn b = true ↔ hcs200_btn b = 0x0f) ∧
    (hcs200_battery_low b = true ↔ (rowByte b 8).testBit 7 = true) ∧
    (hcs200_repeat b = true ↔ (rowByte b 8).testBit 6 = true) := by
  have h7 := byte_facts (rowByte b 7) (rowByte_lt b 7)
  have h8 := byte_facts (rowByte b 8) (rowByte_lt b 8)
  refine ⟨?_, ?_, ?_, ?_⟩
  · exact h7.2.2.2.1
  · simp only [hcs200_learn, hcs200_btn, beq_iff_eq]
  · simp only [hcs200_battery_low, beq_iff_eq]
    exact h8.2.2.2.2.1
  · simp only [hcs200_repeat, beq_iff_eq]
    exact h8.2.2.2.2.2.1

/-- C10: the serial value always fits in 28 bits (its most significant byte,
the bit-reversed masked byte 7, is below 16), so the 7-digit zero-padded hex
rendering into the 9-byte `serial_str` buffer is exactly 7 characters and is
never truncated by `snprintf`. -/
theorem spec_C10 (b : List Nat) :
    hcs200_serial b < 2 ^ 28 ∧
    reverse8 (rowByte b 7 &&& 0xf0) < 16 ∧
    hcs200_serial_str b = String.mk (formatHex 7 (hcs200_serial b)) ∧
    (hcs200_serial_str b).length = 7 := by
  have h16 : (16 : Nat) ^ 7 = 2 ^ 28 := by norm_num
  have hlt : hcs200_serial b < 16 ^ 7 := by
    rw [h16]
    exact hcs200_serial_lt b
  have hspec := snprintf_hex_spec 9 7 (hcs200_serial b) (by norm_num) (by norm_num) hlt
  exact ⟨hcs200_serial_lt b, (byte_facts (rowByte b 7) (rowByte_lt b 7)).2.1,
         hspec.1, hspec.2.1⟩

/-- C2 (amended): for every input whose row 0 bit count is not 12 or whose
row 1 bit count is not 66, the decoder returns `DECODE_ABORT_LENGTH`
(`LENGTH_MISMATCH`) and emits no record, regardless of any row content; the
buffer's total row count is not itself examined. -/
theorem spec_C2 (buf : bitbuffer_t) (h : bitsRow buf 0 ≠ 12 ∨ bitsRow buf 1 ≠ 66) :
    hcs200_callback buf = (ret_code.DECODE_ABORT_LENGTH, []) := by
  unfold hcs200_callback
  rw [if_pos h]

theorem spec_C2_witness : hcs200_callback shortRow0Buf = (ret_code.DECODE_ABORT_LENGTH, []) :=
  spec_C2 shortRow0Buf (Or.inl (by decide))

/-- C2 counterexample: a buffer with three rows whose rows 0 and 1 are
well-formed is not rejected with `LENGTH_MISMATCH`; it is accepted and a
record is emitted, so a row count other than two does not by itself cause a
`LENGTH_MISMATCH` rejection. -/
theorem spec_C2_cex :
    threeRowBuf.num_rows ≠ 2 ∧
    (hcs200_callback threeRowBuf).1 ≠ ret_code.DECODE_ABORT_LENGTH ∧
    (hcs200_callback threeRowBuf).1 = ret_code.DECODE_OK ∧
    (hcs200_callback threeRowBuf).2.length = 1 := by
  refine ⟨by decide, ?_, ?_, ?_⟩ <;> decide

/-- C3: for every input with correct row lengths whose preamble row fails the
check (byte 0 not 0xFF, or the top nibble of byte 1 not 0xF), the decoder
returns `DECODE_ABORT_EARLY` (`PREAMBLE_MISMATCH`) and emits no record. -/
theorem spec_C3 (buf : bitbuffer_t)
    (h0 : bitsRow buf 0 = 12) (h1 : bitsRow buf 1 = 66)
    (hpre : rowByte (buf.bb.getD 0 []) 0 ≠ 0xff ∨ rowByte (buf.bb.getD 0 []) 1 / 16 ≠ 0xf) :
    hcs200_callback buf = (ret_code.DECODE_ABORT_EARLY, []) := by
  have hiff := (byte_facts (rowByte (buf.bb.getD 0 []) 1) (rowByte_lt _ 1)).2.2.2.2.2.2
  have hcond : rowByte (buf.bb.getD 0 []) 0 ≠ 0xff ∨
      (rowByte (buf.bb.getD 0 []) 1 &&& 0xf0) ≠ 0xf0 := by
    rcases hpre with h | h
    · exact Or.inl h
    · exact Or.inr fun hc => h (hiff.mp hc)
  unfold hcs200_callback
  rw [if_neg (by omega), if_pos hcond]

theorem spec_C3_witness : hcs200_callback badPreambleBuf = (ret_code.DECODE_ABORT_EARLY, []) :=
  spec_C3 badPreambleBuf (by decide) (by decide) (Or.inl (by decide))

/-- C4: for every correctly-shaped, correctly-preambled input whose data-row
bytes 1 through 7 are all 0xFF, the decoder returns `DECODE_FAIL_SANITY`
(`SANITY_FAIL`) and emits no record; data byte 0 is left unconstrained. -/
theorem spec_C4 (buf : bitbuffer_t)
    (h0 : bitsRow buf 0 = 12) (h1 : bitsRow buf 1 = 66)
    (hp0 : rowByte (buf.bb.getD 0 []) 0 = 0xff)
    (hp1 : rowByte (buf.bb.getD 0 []) 1 / 16 = 0xf)
    (hff : ∀ i, 1 ≤ i → i ≤ 7 → rowByte (buf.bb.getD 1 []) i = 0xff) :
    hcs200_callback buf = (ret_code.DECODE_FAIL_SANITY, []) := by
  have hiff := (byte_facts (rowByte (buf.bb.getD 0 []) 1) (rowByte_lt _ 1)).2.2.2.2.2.2
  unfold hcs200_callback
  rw [if_neg (by omega), if_neg (by push_neg; exact ⟨hp0, hiff.mpr hp1⟩),
      if_pos ((sanity_iff _).mpr hff)]

theorem spec_C4_witness : hcs200_callback allFFDataBuf = (ret_code.DECODE_FAIL_SANITY, []) :=
  spec_C4 allFFDataBuf (by decide) (by decide) (by decide) (by decide)
    (by intro i h1 h7; interval_cases i <;> decide)

/-- C9: the decoder returns `DECODE_OK` and emits exactly one record if and
only if row 0 has 12 bits, row 1 has 66 bits, the preamble bytes match
(byte 0 is 0xFF and the top nibble of byte 1 is 0xF), and data bytes 1..7 are
not all 0xFF. The right-hand side mentions neither data byte 0, nor data
byte 8, nor the buffer's row count, so acceptance depends on none of them. -/
theorem spec_C9 (buf : bitbuffer_t) :
    ((hcs200_callback buf).1 = ret_code.DECODE_OK ∧ (hcs200_callback buf).2.length = 1)
      ↔ (bitsRow buf 0 = 12 ∧ bitsRow buf 1 = 66 ∧
         rowByte (buf.bb.getD 0 []) 0 = 0xff ∧ rowByte (buf.bb.getD 0 []) 1 / 16 = 0xf ∧
         ¬ (∀ i, 1 ≤ i → i ≤ 7 → rowByte (buf.bb.getD 1 []) i = 0xff)) := by
  have hiff := (byte_facts (rowByte (buf.bb.getD 0 []) 1) (rowByte_lt _ 1)).2.2.2.2.2.2
  have hsan := sanity_iff (buf.bb.getD 1 [])
  unfold hcs200_callback
  split_ifs with hA hB hC
  · constructor
    · rintro ⟨hok, -⟩
      exact hok.elim
    · rintro ⟨h12, h66, -⟩
      rcases hA with h | h
      · exact (h h12).elim
      · exact (h h66).elim
  · constructor
    · rintro ⟨hok, -⟩
      exact hok.elim
    · rintro ⟨-, -, hp0, hp1, -⟩
      rcases hB with h | h
      · exact (h hp0).elim
      · exact (h (hiff.mpr hp1)).elim
  · constructor
    · rintro ⟨hok, -⟩
      exact hok.elim
    · rintro ⟨-, -, -, -, hnot⟩
      exact (hnot (hsan.mp hC)).elim
  · push_neg at hA hB
    constructor
    · intro _
      exact ⟨hA.1, hA.2, hB.1, hiff.mp hB.2, fun hall => hC (hsan.mpr hall)⟩
    · intro _
      exact ⟨rfl, rfl⟩

theorem hcs200_record_battery (b : List Nat) :
    (((hcs200_record b).getD 2 ("", "", data_value.int 0)).2.2
        = data_value.int 1 ↔ hcs200_battery_low b = false) ∧
    (((hcs200_record b).getD 2 ("", "", data_value.int 0)).2.2
        = data_value.int 0 ↔ hcs200_battery_low b = true) := by
  cases hb : hcs200_battery_low b <;> simp [hcs200_record, hb]

/-- C8: every accepted input emits exactly the record built from the data row:
its keys are `model, id, battery_ok, button, learn, repeat, encrypted` in that
order, the id is the serial rendered as exactly 7 zero-padded uppercase hex
digits, the encrypted string is exactly 8 zero-padded uppercase hex digits
(neither truncated by `snprintf`), and `battery_ok` is the boolean inverse of
`battery_low`. -/
theorem spec_C8 (buf : bitbuffer_t) (h : (hcs200_callback buf).1 = ret_code.DECODE_OK) :
    (hcs200_callback buf).2 = [hcs200_record (buf.bb.getD 1 [])] ∧
    (hcs200_record (buf.bb.getD 1 [])).map (fun f => f.1) = output_fields ∧
    hcs200_serial_str (buf.bb.getD 1 [])
      = String.mk (formatHex 7 (hcs200_serial (buf.bb.getD 1 []))) ∧
    (hcs200_serial_str (buf.bb.getD 1 [])).length = 7 ∧
    (hcs200_serial_str (buf.bb.getD 1 [])).data.all isHexUpper = true ∧
    hcs200_encrypted_str (buf.bb.getD 1 [])
      = String.mk (formatHex 8 (hcs200_encrypted (buf.bb.getD 1 []))) ∧
    (hcs200_encrypted_str (buf.bb.getD 1 [])).length = 8 ∧
    (hcs200_encrypted_str (buf.bb.getD 1 [])).data.all isHexUpper = true ∧
    (((hcs200_record (buf.bb.getD 1 [])).getD 2 ("", "", data_value.int 0)).2.2
        = data_value.int 1 ↔ hcs200_battery_low (buf.bb.getD 1 []) = false) ∧
    (((hcs200_record (buf.bb.getD 1 [])).getD 2 ("", "", data_value.int 0)).2.2
        = data_value.int 0 ↔ hcs200_battery_low (buf.bb.getD 1 []) = true) := by
  have hs16 : (16 : Nat) ^ 7 = 2 ^ 28 := by norm_num
  have he16 : (16 : Nat) ^ 8 = 2 ^ 32 := by norm_num
  have hsspec := snprintf_hex_spec 9 7 (hcs200_serial (buf.bb.getD 1 []))
    (by norm_num) (by norm_num) (by rw [hs16]; exact hcs200_serial_lt _)
  have hespec := snprintf_hex_spec 9 8 (hcs200_encrypted (buf.bb.getD 1 []))
    (by norm_num) (by norm_num) (by rw [he16]; exact hcs200_encrypted_lt _)
  refine ⟨?_, rfl, hsspec.1, hsspec.2.1, hsspec.2.2, hespec.1, hespec.2.1, hespec.2.2,
          ?_, ?_⟩
  · unfold hcs200_callback at h ⊢
    split_ifs at h ⊢
    rfl
  · exact (hcs200_record_battery (buf.bb.getD 1 [])).1
  · exact (hcs200_record_battery (buf.bb.getD 1 [])).2

theorem spec_C8_witness :
    (hcs200_callback wbufA).2 = [hcs200_record (wbufA.bb.getD 1 [])] ∧
    (hcs200_record (wbufA.bb.getD 1 [])).map (fun f => f.1) = output_fields ∧
    hcs200_serial_str (wbufA.bb.getD 1 [])
      = String.mk (formatHex 7 (hcs200_serial (wbufA.bb.getD 1 []))) ∧
    (hcs200_serial_str (wbufA.bb.getD 1 [])).length = 7 ∧
    (hcs200_serial_str (wbufA.bb.getD 1 [])).data.all isHexUpper = true ∧
    hcs200_encrypted_str (wbufA.bb.getD 1 [])
      = String.mk (formatHex 8 (hcs200_encrypted (wbufA.bb.getD 1 []))) ∧
    (hcs200_encrypted_str (wbufA.bb.getD 1 [])).length = 8 ∧
    (hcs200_encrypted_str (wbufA.bb.getD 1 [])).data.all isHexUpper = true ∧
    (((hcs200_record (wbufA.bb.getD 1 [])).getD 2 ("", "", data_value.int 0)).2.2
        = data_value.int 1 ↔ hcs200_battery_low (wbufA.bb.getD 1 []) = false) ∧
    (((hcs200_record (wbufA.bb.getD 1 [])).getD 2 ("", "", data_value.int 0)).2.2
        = data_value.int 0 ↔ hcs200_battery_low (wbufA.bb.getD 1 []) = true) :=
  spec_C8 wbufA (by decide)
